import Mathlib

/-!
Shallow embedding of the Elite-Fire backend (src/server.js): a wagering
ledger over four MongoDB collections (users, matches, transactions,
notifications) accessed through Express routes.  Each route handler is
modelled as a pure function from a `State` (the database contents plus a
logical clock used for server-assigned timestamps) to a response and a
new `State`.  MongoDB document ids are strings; `_id` is unique per
collection, so `findByIdAndUpdate` is modelled as a map that rewrites
the documents whose id matches.
-/

namespace EliteFire

/-- A document of the `users` collection (UserSchema, server.js lines 18-29). -/
structure User where
  id : String
  username : String
  email : String
  pin : String
  role : String
  balance : Int
  isBlocked : Bool
  isDeleted : Bool
  canCreateMatch : Bool
  totalMatchesPaid : Int
  createdAt : Nat
deriving DecidableEq, Repr

/-- One roster entry of a match team (embedded in MatchSchema, line 33). -/
structure RosterEntry where
  userId : String
  username : String
  betAmount : Int
  paid : Bool
deriving DecidableEq, Repr

/-- A document of the `matches` collection (MatchSchema, lines 31-38).
`winningTeam` is an optional string field, absent until set. -/
structure GameMatch where
  id : String
  name : String
  teamA : List RosterEntry
  teamB : List RosterEntry
  winningTeam : Option String
  status : String
  createdAt : Nat
deriving DecidableEq, Repr

/-- A document of the `transactions` collection (TransactionSchema, lines 40-46). -/
structure Transaction where
  userId : String
  amount : Int
  kind : String
  description : String
  timestamp : Nat
deriving DecidableEq, Repr

/-- A document of the `notifications` collection (NotificationSchema, lines 48-53). -/
structure Notif where
  userId : String
  message : String
  timestamp : Nat
  isRead : Bool
deriving DecidableEq, Repr

/-- The database state: the four collections, in insertion order, plus a
logical clock supplying the strictly increasing `Date.now` timestamps
assigned to freshly saved timestamped documents. -/
structure State where
  users : List User
  matchList : List GameMatch
  transactions : List Transaction
  notifs : List Notif
  now : Nat
deriving DecidableEq, Repr

def emptyState : State := ⟨[], [], [], [], 0⟩

/-- `User.findById` / `findOne` on `_id`. -/
def findUser (s : State) (uid : String) : Option User :=
  s.users.find? (fun u => u.id == uid)

/-- `Match.findById`. -/
def findMatch (s : State) (mid : String) : Option GameMatch :=
  s.matchList.find? (fun m => m.id == mid)

/-- `User.findByIdAndUpdate`: rewrite the (unique) user document whose
`_id` matches, via `f`. -/
def updUser (uid : String) (f : User → User) (l : List User) : List User :=
  l.map (fun u => if u.id = uid then f u else u)

/-- `match.save()` on an existing document: rewrite the stored match
with the mutated one (matched by `_id`). -/
def saveMatch (m : GameMatch) (l : List GameMatch) : List GameMatch :=
  l.map (fun x => if x.id = m.id then m else x)

/-- `new Transaction({...}).save()`: append a ledger document stamped
with the current clock, then advance the clock. -/
def appendTx (s : State) (uid : String) (amount : Int) (kind description : String) :
    State :=
  { s with transactions := s.transactions ++ [⟨uid, amount, kind, description, s.now⟩],
           now := s.now + 1 }

/-- `new Notification({...}).save()`. -/
def appendNotif (s : State) (uid message : String) : State :=
  { s with notifs := s.notifs ++ [⟨uid, message, s.now, false⟩], now := s.now + 1 }

/-- The balance of account `uid` (0 when the account is absent). -/
def getBalance (s : State) (uid : String) : Int :=
  match findUser s uid with
  | some u => u.balance
  | none => 0

/-- The `totalMatchesPaid` counter of account `uid` (0 when absent). -/
def getTotalPaid (s : State) (uid : String) : Int :=
  match findUser s uid with
  | some u => u.totalMatchesPaid
  | none => 0

/-- The sum of the amounts of the ledger entries recorded for `uid`. -/
def txSum (txs : List Transaction) (uid : String) : Int :=
  ((txs.filter (fun t => t.userId == uid)).map (fun t => t.amount)).sum

/-- The non-timestamp fields of a ledger entry, for stating which
entries an operation appends without fixing clock values. -/
def txKey (t : Transaction) : String × Int × String × String :=
  (t.userId, t.amount, t.kind, t.description)

/-- POST /api/users (lines 69-77): save a new user document; the unique
indexes on `_id`, `username` and `email` make the save fail with a 400
response on a duplicate. -/
def createUser (s : State) (u : User) : Except Nat User × State :=
  if s.users.any (fun v => v.id == u.id || v.username == u.username || v.email == u.email)
  then (.error 400, s)
  else (.ok u, { s with users := s.users ++ [u] })

/-- The fields a PATCH /api/users/:id body may set (`findByIdAndUpdate`
applies the request body as field assignments; `_id` is immutable). -/
structure UserUpd where
  username : Option String
  email : Option String
  pin : Option String
  role : Option String
  balance : Option Int
  isBlocked : Option Bool
  isDeleted : Option Bool
  canCreateMatch : Option Bool
  totalMatchesPaid : Option Int
deriving DecidableEq, Repr

def applyUpd (b : UserUpd) (u : User) : User :=
  { u with
    username := b.username.getD u.username,
    email := b.email.getD u.email,
    pin := b.pin.getD u.pin,
    role := b.role.getD u.role,
    balance := b.balance.getD u.balance,
    isBlocked := b.isBlocked.getD u.isBlocked,
    isDeleted := b.isDeleted.getD u.isDeleted,
    canCreateMatch := b.canCreateMatch.getD u.canCreateMatch,
    totalMatchesPaid := b.totalMatchesPaid.getD u.totalMatchesPaid }

/-- PATCH /api/users/:id (lines 84-91): `findByIdAndUpdate(id, body,
{new:true})`; responds with the updated document, or null when absent. -/
def updateUser (s : State) (uid : String) (b : UserUpd) : Option User × State :=
  match findUser s uid with
  | none => (none, s)
  | some u => (some (applyUpd b u), { s with users := updUser uid (applyUpd b) s.users })

/-- The notification message built by the adjust route (line 100):
`System Adjustment: ${amount >= 0 ? '+' : ''}${amount} credits (${description})`. -/
def adjustMessage (amount : Int) (description : String) : String :=
  "System Adjustment: " ++ (if 0 ≤ amount then "+" else "") ++ toString amount
    ++ " credits (" ++ description ++ ")"

/-- POST /api/users/:userId/adjust (lines 93-108): `$inc` the balance;
when the user exists, save an ADMIN_ADJUST transaction and a
notification and respond with the updated user, else respond 404. -/
def adjust (s : State) (uid : String) (amount : Int) (description : String) :
    Except Nat User × State :=
  match findUser s uid with
  | none => (.error 404, s)
  | some u =>
      let u' := { u with balance := u.balance + amount }
      let s1 := { s with users := updUser uid (fun v => { v with balance := v.balance + amount }) s.users }
      let s2 := appendTx s1 uid amount "ADMIN_ADJUST" description
      let s3 := appendNotif s2 uid (adjustMessage amount description)
      (.ok u', s3)

/-- A POST /api/matches request body.  The route passes `req.body`
straight to `new Match(req.body)`, so every MatchSchema path is
body-settable: `winningTeam` and `status` may be supplied by the client,
and default to absent resp. "UNDECIDED" when omitted; `createdAt`
defaults to `Date.now` when omitted. -/
structure MatchBody where
  name : String
  teamA : List RosterEntry
  teamB : List RosterEntry
  winningTeam : Option String
  status : Option String
  createdAt : Option Nat
deriving DecidableEq, Repr

/-- POST /api/matches (lines 115-119): save a new match built from the
whole request body, applying the schema defaults for omitted fields.
The unique `_id` index rejects a duplicate id. -/
def createMatch (s : State) (mid : String) (b : MatchBody) :
    Except Nat GameMatch × State :=
  if s.matchList.any (fun m => m.id == mid) then (.error 400, s)
  else
    let m : GameMatch :=
      ⟨mid, b.name, b.teamA, b.teamB, b.winningTeam, b.status.getD "UNDECIDED",
        b.createdAt.getD s.now⟩
    (.ok m, { s with matchList := s.matchList ++ [m], now := s.now + 1 })

/-- One iteration of a settle payout loop (lines 135-142): `$inc` the
player's balance by `±betAmount` and save a WIN / LOSS transaction. -/
def payoutOne (name : String) (win : Bool) (s : State) (p : RosterEntry) : State :=
  let amt : Int := if win then p.betAmount else -p.betAmount
  let s1 := { s with users := updUser p.userId (fun u => { u with balance := u.balance + amt }) s.users }
  appendTx s1 p.userId amt (if win then "WIN" else "LOSS")
    ((if win then "Victory: " else "Defeat: ") ++ name)

/-- A settle payout loop over one roster. -/
def payoutTeam (name : String) (win : Bool) (s : State) (team : List RosterEntry) : State :=
  team.foldl (payoutOne name win) s

/-- The balance increment applied to a roster entry in a payout loop. -/
def payoutAmt (w : Bool) (p : RosterEntry) : Int := if w then p.betAmount else -p.betAmount

/-- PATCH /api/matches/:id/settle (lines 121-145): respond 400 when the
match is absent or already SETTLED; otherwise save the match as SETTLED
with the given `winningTeam`, then pay out: `winningTeam === 'A'` selects
teamA as winners and teamB as losers, any other value the reverse. -/
def settle (s : State) (mid wt : String) : Except Nat GameMatch × State :=
  match findMatch s mid with
  | none => (.error 400, s)
  | some m =>
      if m.status = "SETTLED" then (.error 400, s)
      else
        let m' := { m with status := "SETTLED", winningTeam := some wt }
        let s1 := { s with matchList := saveMatch m' s.matchList }
        let winners := if wt = "A" then m'.teamA else m'.teamB
        let losers := if wt = "A" then m'.teamB else m'.teamA
        let s2 := payoutTeam m'.name true s1 winners
        let s3 := payoutTeam m'.name false s2 losers
        (.ok m', s3)

/-- The database state persisted by the settle route after the awaited
`match.save()` of line 129 and before the payout loops of lines 135-142
(none when the route exits early at line 125).  The route performs the
status write and the payouts as separate awaited operations, so this
intermediate state is durable if execution stops after the save. -/
def settleAfterSave (s : State) (mid wt : String) : Option State :=
  match findMatch s mid with
  | none => none
  | some m =>
      if m.status = "SETTLED" then none
      else some { s with matchList := saveMatch { m with status := "SETTLED", winningTeam := some wt } s.matchList }

/-- Mark the first roster entry for `uid` as paid (the `team.find` +
`p.paid = true` of lines 155-161, applied to one team). -/
def markPaidFirst (uid : String) : List RosterEntry → List RosterEntry
  | [] => []
  | p :: rest =>
      if p.userId = uid then { p with paid := true } :: rest
      else p :: markPaidFirst uid rest

/-- POST /api/matches/:id/pay/:userId (lines 147-173): 404 when the match
is absent or the player is on neither roster; otherwise set `paid = true`
on the player's roster entries (first hit in each team), save the match,
and unconditionally `$inc` the player's `totalMatchesPaid` by 1. -/
def pay (s : State) (mid uid : String) : Except Nat GameMatch × State :=
  match findMatch s mid with
  | none => (.error 404, s)
  | some m =>
      let found := m.teamA.any (fun p => p.userId == uid) || m.teamB.any (fun p => p.userId == uid)
      if found then
        let m' := { m with teamA := markPaidFirst uid m.teamA, teamB := markPaidFirst uid m.teamB }
        let s1 := { s with matchList := saveMatch m' s.matchList }
        let s2 := { s1 with users := updUser uid (fun u => { u with totalMatchesPaid := u.totalMatchesPaid + 1 }) s1.users }
        (.ok m', s2)
      else (.error 404, s)

/-- One request against the core routes, for stating properties of all
reachable states.  Each constructor carries the request parameters of the
corresponding route. -/
inductive Op : Type
  | createUser (u : User)
  | updateUser (uid : String) (b : UserUpd)
  | adjust (uid : String) (amount : Int) (description : String)
  | createMatch (mid : String) (b : MatchBody)
  | settle (mid wt : String)
  | pay (mid uid : String)
deriving DecidableEq, Repr

/-- Apply one request to the state, discarding the response. -/
def applyOp (s : State) : Op → State
  | .createUser u => (createUser s u).2
  | .updateUser uid b => (updateUser s uid b).2
  | .adjust uid amount description => (adjust s uid amount description).2
  | .createMatch mid b => (createMatch s mid b).2
  | .settle mid wt => (settle s mid wt).2
  | .pay mid uid => (pay s mid uid).2

/-- Run a sequence of requests. -/
def run (s : State) (ops : List Op) : State := ops.foldl applyOp s

/-- Guard on a request, relative to the state it is applied in:
new users start at the schema-default balance 0, new matches only
reference accounts that exist, and user updates do not write the
balance field directly. -/
def opOk (s : State) : Op → Bool
  | .createUser u => u.balance == 0
  | .updateUser _ b => b.balance == none
  | .createMatch _ b => (b.teamA ++ b.teamB).all (fun p => (findUser s p.userId).isSome)
  | _ => true

/-- Every request of the sequence satisfies `opOk` in the state it runs in. -/
def legal : State → List Op → Bool
  | _, [] => true
  | s, op :: ops => opOk s op && legal (applyOp s op) ops

/-- The request supplies neither `status` nor `winningTeam` when creating
a match: the plain body shape carrying only name and the two rosters. -/
def plainCreate : Op → Bool
  | .createMatch _ b => b.status == none && b.winningTeam == none
  | _ => true

/-- Conservation: every account's balance equals the sum of its ledger
entry amounts. -/
def conserved (s : State) : Prop :=
  ∀ u ∈ s.users, u.balance = txSum s.transactions u.id

/-- Every roster entry of every stored match references an existing account. -/
def rostersValid (s : State) : Prop :=
  ∀ m ∈ s.matchList, ∀ p ∈ m.teamA ++ m.teamB, ∃ u ∈ s.users, u.id = p.userId

/-- Every ledger entry references an existing account. -/
def txValid (s : State) : Prop :=
  ∀ t ∈ s.transactions, ∃ u ∈ s.users, u.id = t.userId

/-- The inductive invariant carrying the conservation property. -/
def Inv (s : State) : Prop := conserved s ∧ rostersValid s ∧ txValid s

/-- For every stored match, `winningTeam` is present iff the match is SETTLED. -/
def matchInv (s : State) : Prop :=
  ∀ m ∈ s.matchList, (m.winningTeam.isSome ↔ m.status = "SETTLED")

/-- The roster data of a match that settlement freezes: everything except
the `paid` flags. -/
def frozenPart (p : RosterEntry) : String × String × Int := (p.userId, p.username, p.betAmount)

/-- The stored matches have pairwise distinct ids (the `_id` unique index). -/
def matchIdsNodup (s : State) : Prop := (s.matchList.map (fun m => m.id)).Nodup

/-- Every match SETTLED in `s` is still present in `t` with the same
winner, name, and roster user/stake data (only `paid` flags may differ). -/
def settledFrozen (s t : State) : Prop :=
  ∀ m ∈ s.matchList, m.status = "SETTLED" →
    ∃ m' ∈ t.matchList, m'.id = m.id ∧ m'.status = "SETTLED" ∧
      m'.winningTeam = m.winningTeam ∧ m'.name = m.name ∧
      m'.teamA.map frozenPart = m.teamA.map frozenPart ∧
      m'.teamB.map frozenPart = m.teamB.map frozenPart

/-- Descending-timestamp order on ledger entries (`.sort({timestamp:-1})`). -/
def txGe (a b : Transaction) : Prop := b.timestamp ≤ a.timestamp

instance : DecidableRel txGe := fun a b => Nat.decLe b.timestamp a.timestamp

instance : IsTotal Transaction txGe := ⟨fun a b => Nat.le_total b.timestamp a.timestamp⟩

instance : IsTrans Transaction txGe := ⟨fun _ _ _ h1 h2 => Nat.le_trans h2 h1⟩

/-- GET /api/transactions (lines 175-178): all ledger entries sorted by
timestamp descending. -/
def listAllTx (s : State) : List Transaction :=
  (s.transactions).insertionSort txGe

/-- GET /api/transactions/:userId (lines 180-183): the user's ledger
entries sorted by timestamp descending. -/
def listTxFor (s : State) (uid : String) : List Transaction :=
  ((s.transactions).filter (fun t => t.userId == uid)).insertionSort txGe

/-! Concrete sample data, used to instantiate the theorems below. -/

def uAlice : User :=
  ⟨"u1", "alice", "alice@x", "1111", "PLAYER", 0, false, false, false, 0, 0⟩

def uBob : User :=
  ⟨"u2", "bob", "bob@x", "2222", "PLAYER", 0, false, false, false, 0, 1⟩

def mAlphaBeta : GameMatch :=
  ⟨"m1", "Alpha vs Beta", [⟨"u1", "alice", 100, false⟩], [⟨"u2", "bob", 100, false⟩],
    none, "UNDECIDED", 2⟩

/-- Two zero-balance players and one undecided 1v1 match at stake 100. -/
def sample : State :=
  ⟨[uAlice, uBob], [mAlphaBeta], [], [], 3⟩

/-- `sample` after settling the match with winner A. -/
def sampleSettled : State := (settle sample "m1" "A").2

/-- The empty PATCH body. -/
def noUpd : UserUpd := ⟨none, none, none, none, none, none, none, none, none⟩

/-- A PATCH body that sets only `balance := 5`. -/
def setBal5 : UserUpd := ⟨none, none, none, none, some 5, none, none, none, none⟩

/-- `sample` after one pay call for alice on the 1v1 match. -/
def payOnceState : State := (pay sample "m1" "u1").2

/-- `sample` after two pay calls for alice on the 1v1 match. -/
def payTwiceState : State := (pay payOnceState "m1" "u1").2

/-- A request sequence from the empty database: create alice, then credit
her 50 by an admin adjustment. -/
def demoOps : List Op := [Op.createUser uAlice, Op.adjust "u1" 50 "seed"]

/-- A request sequence from the empty database: create alice, then PATCH
her balance to 5 directly. -/
def cexOps : List Op := [Op.createUser uAlice, Op.updateUser "u1" setBal5]

/-- The database after `cexOps`. -/
def cexState : State := run emptyState cexOps

/-- The plain creation body for the sample 1v1 match: name and the two
rosters only. -/
def plainBody : MatchBody :=
  ⟨"Alpha vs Beta", [⟨"u1", "alice", 100, false⟩], [⟨"u2", "bob", 100, false⟩],
    none, none, none⟩

/-- A creation body that smuggles a pre-set winner into a match left
UNDECIDED by the status default. -/
def riggedBody : MatchBody :=
  ⟨"Ghost vs Shadow", [⟨"u1", "alice", 100, false⟩], [⟨"u2", "bob", 100, false⟩],
    some "A", none, none⟩

/-- A request sequence creating a match whose body pre-sets `winningTeam`. -/
def riggedOps : List Op :=
  [Op.createUser uAlice, Op.createUser uBob, Op.createMatch "m2" riggedBody]

/-- The database after `riggedOps`. -/
def riggedState : State := run emptyState riggedOps

/-- A plain run: create both players, the 1v1 match, and settle it. -/
def plainOps : List Op :=
  [Op.createUser uAlice, Op.createUser uBob, Op.createMatch "m1" plainBody,
    Op.settle "m1" "A"]

/-! ### Helper lemmas -/

lemma updUser_map_id (uid : String) (f : User → User) (hf : ∀ u, (f u).id = u.id)
    (l : List User) :
    (updUser uid f l).map (fun u => u.id) = l.map (fun u => u.id) := by
  simp only [updUser, List.map_map]
  apply List.map_congr_left
  intro u _
  simp only [Function.comp_apply]
  split
  · exact hf u
  · rfl

lemma find?_updUser (uid vid : String) (f : User → User) (hf : ∀ u, (f u).id = u.id)
    (l : List User) :
    (updUser uid f l).find? (fun u => u.id == vid) =
      (l.find? (fun u => u.id == vid)).map (fun u => if u.id = uid then f u else u) := by
  induction l with
  | nil => rfl
  | cons u rest ih =>
      have hid : (if u.id = uid then f u else u).id = u.id := by
        split
        · exact hf u
        · rfl
      by_cases h : u.id = vid
      · have hbeq : (u.id == vid) = true := by simp [h]
        simp only [updUser, List.map_cons, List.find?_cons, hid, hbeq]
        rfl
      · simp only [updUser, List.map_cons, List.find?_cons, hid]
        have hbeq : (u.id == vid) = false := by simp [h]
        simp only [hbeq]
        exact ih

lemma findUser_isSome_of_map_id {s t : State} (uid : String)
    (h : t.users.map (fun u => u.id) = s.users.map (fun u => u.id)) :
    (findUser t uid).isSome = (findUser s uid).isSome := by
  have key : ∀ l : List User,
      (l.find? (fun u => u.id == uid)).isSome = (l.map (fun u => u.id)).any (fun i => i == uid) := by
    intro l
    induction l with
    | nil => rfl
    | cons u rest ih =>
        by_cases hx : u.id = uid
        · simp [List.find?_cons, hx]
        · have hbeq : (u.id == uid) = false := by simp [hx]
          simp [List.find?_cons, hbeq, ih]
  simp only [findUser, key, h]

lemma exists_id_of_map_id {l t : List User}
    (h : t.map (fun u => u.id) = l.map (fun u => u.id)) (x : String) :
    (∃ u ∈ l, u.id = x) → ∃ u ∈ t, u.id = x := by
  rintro ⟨u, hu, hx⟩
  have : x ∈ t.map (fun u => u.id) := by
    rw [h]
    exact List.mem_map.mpr ⟨u, hu, hx⟩
  rcases List.mem_map.mp this with ⟨v, hv, hvx⟩
  exact ⟨v, hv, hvx⟩

lemma txSum_append (l : List Transaction) (t : Transaction) (uid : String) :
    txSum (l ++ [t]) uid = txSum l uid + (if t.userId = uid then t.amount else 0) := by
  simp only [txSum, List.filter_append]
  by_cases h : t.userId = uid
  · simp [h]
  · simp [h]

lemma txSum_eq_zero (l : List Transaction) (uid : String)
    (h : ∀ t ∈ l, t.userId ≠ uid) : txSum l uid = 0 := by
  have : l.filter (fun t => t.userId == uid) = [] := by
    apply List.filter_eq_nil_iff.mpr
    intro t ht
    simp [h t ht]
  simp [txSum, this]

lemma findUser_id {s : State} {uid : String} {u : User} (h : findUser s uid = some u) :
    u.id = uid := by
  have hp := List.find?_some (show s.users.find? (fun u => u.id == uid) = some u from h)
  simpa using hp

lemma findUser_mem {s : State} {uid : String} {u : User} (h : findUser s uid = some u) :
    u ∈ s.users :=
  List.mem_of_find?_eq_some (show s.users.find? (fun u => u.id == uid) = some u from h)

lemma findUser_state_updUser {s t : State} (uid vid : String) (f : User → User)
    (hf : ∀ u, (f u).id = u.id) (ht : t.users = updUser vid f s.users) :
    findUser t uid = (findUser s uid).map (fun u => if u.id = vid then f u else u) := by
  simp only [findUser, ht]
  exact find?_updUser vid uid f hf s.users

lemma getBalance_updUser_ne {s t : State} {uid vid : String} {f : User → User}
    (ht : t.users = updUser vid f s.users) (hf : ∀ u, (f u).id = u.id) (hne : uid ≠ vid) :
    getBalance t uid = getBalance s uid := by
  unfold getBalance
  rw [findUser_state_updUser uid vid f hf ht]
  cases hfind : findUser s uid with
  | none => rfl
  | some u =>
      have hid : u.id = uid := findUser_id hfind
      have : ¬ u.id = vid := by rw [hid]; exact hne
      simp [this]

lemma getBalance_updUser_self {s t : State} {vid : String} {f : User → User}
    (ht : t.users = updUser vid f s.users) (hf : ∀ u, (f u).id = u.id) {u : User}
    (hu : findUser s vid = some u) :
    getBalance t vid = (f u).balance := by
  unfold getBalance
  rw [findUser_state_updUser vid vid f hf ht, hu]
  have hid : u.id = vid := findUser_id hu
  simp [hid]

lemma payoutOne_users (name : String) (w : Bool) (s : State) (p : RosterEntry) :
    (payoutOne name w s p).users =
      updUser p.userId (fun u => { u with balance := u.balance + payoutAmt w p }) s.users := rfl

lemma payoutOne_matchList (name : String) (w : Bool) (s : State) (p : RosterEntry) :
    (payoutOne name w s p).matchList = s.matchList := rfl

lemma payoutOne_tx (name : String) (w : Bool) (s : State) (p : RosterEntry) :
    (payoutOne name w s p).transactions =
      s.transactions ++ [⟨p.userId, payoutAmt w p, (if w then "WIN" else "LOSS"),
        (if w then "Victory: " else "Defeat: ") ++ name, s.now⟩] := rfl

lemma payoutOne_users_map_id (name : String) (w : Bool) (s : State) (p : RosterEntry) :
    (payoutOne name w s p).users.map (fun u => u.id) = s.users.map (fun u => u.id) := by
  rw [payoutOne_users]
  exact updUser_map_id p.userId (fun u => { u with balance := u.balance + payoutAmt w p })
    (fun u => rfl) s.users

lemma getBalance_payoutOne_ne (name : String) (w : Bool) (s : State) (p : RosterEntry)
    {uid : String} (hne : uid ≠ p.userId) :
    getBalance (payoutOne name w s p) uid = getBalance s uid :=
  getBalance_updUser_ne (payoutOne_users name w s p) (fun _ => rfl) hne

lemma getBalance_payoutOne_self (name : String) (w : Bool) (s : State) (p : RosterEntry)
    {u : User} (hu : findUser s p.userId = some u) :
    getBalance (payoutOne name w s p) p.userId = getBalance s p.userId + payoutAmt w p := by
  rw [getBalance_updUser_self (payoutOne_users name w s p) (fun _ => rfl) hu]
  unfold getBalance
  rw [hu]

lemma payoutTeam_users_map_id (name : String) (w : Bool) (team : List RosterEntry)
    (s : State) :
    (payoutTeam name w s team).users.map (fun u => u.id) = s.users.map (fun u => u.id) := by
  induction team generalizing s with
  | nil => rfl
  | cons q rest ih =>
      show (payoutTeam name w (payoutOne name w s q) rest).users.map _ = _
      rw [ih, payoutOne_users_map_id]

lemma payoutTeam_matchList (name : String) (w : Bool) (team : List RosterEntry)
    (s : State) :
    (payoutTeam name w s team).matchList = s.matchList := by
  induction team generalizing s with
  | nil => rfl
  | cons q rest ih =>
      show (payoutTeam name w (payoutOne name w s q) rest).matchList = _
      rw [ih, payoutOne_matchList]

lemma payoutTeam_txKey (name : String) (w : Bool) (team : List RosterEntry) (s : State) :
    (payoutTeam name w s team).transactions.map txKey =
      s.transactions.map txKey ++
        team.map (fun p => (p.userId, payoutAmt w p, (if w then "WIN" else "LOSS"),
          (if w then "Victory: " else "Defeat: ") ++ name)) := by
  induction team generalizing s with
  | nil => simp [payoutTeam]
  | cons q rest ih =>
      show (payoutTeam name w (payoutOne name w s q) rest).transactions.map txKey = _
      rw [ih, payoutOne_tx]
      simp [txKey]

lemma getBalance_payoutTeam_notin (name : String) (w : Bool) (team : List RosterEntry)
    (s : State) {uid : String} (h : uid ∉ team.map (fun p => p.userId)) :
    getBalance (payoutTeam name w s team) uid = getBalance s uid := by
  induction team generalizing s with
  | nil => rfl
  | cons q rest ih =>
      show getBalance (payoutTeam name w (payoutOne name w s q) rest) uid = _
      have hq : uid ≠ q.userId := by
        intro hx
        exact h (by simp [hx])
      have hrest : uid ∉ rest.map (fun p => p.userId) := by
        intro hx
        exact h (by simp [hx])
      rw [ih _ hrest, getBalance_payoutOne_ne name w s q hq]

lemma getBalance_payoutTeam_mem (name : String) (w : Bool) (team : List RosterEntry)
    (s : State) (hnd : (team.map (fun p => p.userId)).Nodup)
    (hex : ∀ p ∈ team, (findUser s p.userId).isSome) {p : RosterEntry} (hp : p ∈ team) :
    getBalance (payoutTeam name w s team) p.userId =
      getBalance s p.userId + payoutAmt w p := by
  induction team generalizing s with
  | nil => cases hp
  | cons q rest ih =>
      have hnd' : (rest.map (fun p => p.userId)).Nodup := (List.nodup_cons.mp hnd).2
      have hqnotin : q.userId ∉ rest.map (fun p => p.userId) := (List.nodup_cons.mp hnd).1
      rcases List.mem_cons.mp hp with hqe | hrest
      · subst hqe
        show getBalance (payoutTeam name w (payoutOne name w s p) rest) p.userId = _
        rw [getBalance_payoutTeam_notin name w rest _ hqnotin]
        rcases Option.isSome_iff_exists.mp (hex p (by simp)) with ⟨u, hu⟩
        exact getBalance_payoutOne_self name w s p hu
      · show getBalance (payoutTeam name w (payoutOne name w s q) rest) p.userId = _
        have hpne : p.userId ≠ q.userId := by
          intro hx
          exact hqnotin (by rw [← hx]; exact List.mem_map.mpr ⟨p, hrest, rfl⟩)
        have hex' : ∀ r ∈ rest, (findUser (payoutOne name w s q) r.userId).isSome := by
          intro r hr
          rw [findUser_isSome_of_map_id r.userId (payoutOne_users_map_id name w s q)]
          exact hex r (by simp [hr])
        rw [ih _ hnd' hex' hrest, getBalance_payoutOne_ne name w s q hpne]

lemma exists_id_state {s t : State}
    (h : t.users.map (fun u => u.id) = s.users.map (fun u => u.id)) (x : String) :
    (∃ u ∈ s.users, u.id = x) → ∃ u ∈ t.users, u.id = x :=
  exists_id_of_map_id h x

lemma findUser_exists_id {s : State} {uid : String}
    (h : (findUser s uid).isSome) : ∃ u ∈ s.users, u.id = uid := by
  rcases Option.isSome_iff_exists.mp h with ⟨u, hu⟩
  exact ⟨u, findUser_mem hu, findUser_id hu⟩

/-! ### Equation lemmas for the route functions -/

lemma createUser_conflict {s : State} {u : User}
    (h : (s.users.any fun v => v.id == u.id || v.username == u.username || v.email == u.email) = true) :
    createUser s u = (.error 400, s) := by
  simp only [createUser, h]
  rfl

lemma createUser_fresh {s : State} {u : User}
    (h : (s.users.any fun v => v.id == u.id || v.username == u.username || v.email == u.email) = false) :
    createUser s u = (.ok u, { s with users := s.users ++ [u] }) := by
  simp only [createUser, h]
  rfl

lemma updateUser_absent {s : State} {uid : String} {b : UserUpd}
    (h : findUser s uid = none) : updateUser s uid b = (none, s) := by
  simp only [updateUser, h]

lemma updateUser_found {s : State} {uid : String} {b : UserUpd} {u : User}
    (h : findUser s uid = some u) :
    updateUser s uid b =
      (some (applyUpd b u), { s with users := updUser uid (applyUpd b) s.users }) := by
  simp only [updateUser, h]

lemma adjust_absent {s : State} {uid : String} {amount : Int} {d : String}
    (h : findUser s uid = none) : adjust s uid amount d = (.error 404, s) := by
  simp only [adjust, h]

lemma adjust_found {s : State} {uid : String} {amount : Int} {d : String} {u : User}
    (h : findUser s uid = some u) :
    adjust s uid amount d =
      (.ok { u with balance := u.balance + amount },
       { users := updUser uid (fun v => { v with balance := v.balance + amount }) s.users,
         matchList := s.matchList,
         transactions := s.transactions ++ [⟨uid, amount, "ADMIN_ADJUST", d, s.now⟩],
         notifs := s.notifs ++ [⟨uid, adjustMessage amount d, s.now + 1, false⟩],
         now := s.now + 2 }) := by
  simp only [adjust, h, appendTx, appendNotif]

lemma createMatch_dup {s : State} {mid : String} {b : MatchBody}
    (h : (s.matchList.any fun m => m.id == mid) = true) :
    createMatch s mid b = (.error 400, s) := by
  simp only [createMatch, h]
  rfl

lemma createMatch_fresh {s : State} {mid : String} {b : MatchBody}
    (h : (s.matchList.any fun m => m.id == mid) = false) :
    createMatch s mid b =
      (.ok ⟨mid, b.name, b.teamA, b.teamB, b.winningTeam, b.status.getD "UNDECIDED",
          b.createdAt.getD s.now⟩,
       { s with
          matchList :=
            (s.matchList ++
              [⟨mid, b.name, b.teamA, b.teamB, b.winningTeam, b.status.getD "UNDECIDED",
                b.createdAt.getD s.now⟩]),
          now := s.now + 1 }) := by
  simp only [createMatch, h]
  rfl

lemma settle_absent {s : State} {mid wt : String}
    (h : findMatch s mid = none) : settle s mid wt = (.error 400, s) := by
  simp only [settle, h]

lemma settle_settled {s : State} {mid wt : String} {m : GameMatch}
    (hm : findMatch s mid = some m) (hs : m.status = "SETTLED") :
    settle s mid wt = (.error 400, s) := by
  simp only [settle, hm, hs]
  rfl

lemma settle_go {s : State} {mid wt : String} {m : GameMatch}
    (hm : findMatch s mid = some m) (hs : ¬ m.status = "SETTLED") :
    settle s mid wt =
      (.ok { m with status := "SETTLED", winningTeam := some wt },
       payoutTeam m.name false
         (payoutTeam m.name true
           { s with matchList :=
               saveMatch { m with status := "SETTLED", winningTeam := some wt } s.matchList }
           (if wt = "A" then m.teamA else m.teamB))
         (if wt = "A" then m.teamB else m.teamA)) := by
  simp only [settle, hm, hs]
  rfl

lemma pay_absent {s : State} {mid uid : String}
    (h : findMatch s mid = none) : pay s mid uid = (.error 404, s) := by
  simp only [pay, h]

lemma pay_notfound {s : State} {mid uid : String} {m : GameMatch}
    (hm : findMatch s mid = some m)
    (h : (m.teamA.any (fun p => p.userId == uid) || m.teamB.any (fun p => p.userId == uid)) = false) :
    pay s mid uid = (.error 404, s) := by
  simp only [pay, h]
  simp [hm, h]

lemma pay_found {s : State} {mid uid : String} {m : GameMatch}
    (hm : findMatch s mid = some m)
    (h : (m.teamA.any (fun p => p.userId == uid) || m.teamB.any (fun p => p.userId == uid)) = true) :
    pay s mid uid =
      (.ok { m with teamA := markPaidFirst uid m.teamA, teamB := markPaidFirst uid m.teamB },
       { s with
           matchList := saveMatch
             { m with teamA := markPaidFirst uid m.teamA, teamB := markPaidFirst uid m.teamB }
             s.matchList,
           users := updUser uid (fun u => { u with totalMatchesPaid := u.totalMatchesPaid + 1 })
             s.users }) := by
  simp only [pay, hm, h]
  rfl

/-! ### Conservation invariant preservation -/

/-- A balance increment paired with one matching ledger entry preserves
the conservation invariant. -/
lemma inv_bump {s t : State} (uid : String) (amount : Int) (kind desc : String) (ts : Nat)
    (hinv : Inv s) (hex : ∃ u ∈ s.users, u.id = uid)
    (husers : t.users = updUser uid (fun v => { v with balance := v.balance + amount }) s.users)
    (hmatch : t.matchList = s.matchList)
    (htx : t.transactions = s.transactions ++ [⟨uid, amount, kind, desc, ts⟩]) :
    Inv t := by
  obtain ⟨hc, hr, hv⟩ := hinv
  have hids : t.users.map (fun u => u.id) = s.users.map (fun u => u.id) := by
    rw [husers]
    exact updUser_map_id uid (fun v => { v with balance := v.balance + amount })
      (fun _ => rfl) s.users
  refine ⟨?_, ?_, ?_⟩
  · intro u' hu'
    rw [husers] at hu'
    rcases List.mem_map.mp hu' with ⟨u, hu, rfl⟩
    rw [htx]
    by_cases hid : u.id = uid
    · have hsum : txSum (s.transactions ++ [⟨uid, amount, kind, desc, ts⟩]) u.id =
          txSum s.transactions u.id + amount := by
        rw [txSum_append]
        simp [hid]
      simp only [if_pos hid]
      show u.balance + amount = txSum (s.transactions ++ [⟨uid, amount, kind, desc, ts⟩]) u.id
      rw [hsum, hc u hu]
    · simp only [if_neg hid]
      rw [txSum_append]
      have hne : ¬ ((⟨uid, amount, kind, desc, ts⟩ : Transaction).userId = u.id) := by
        intro hx
        exact hid (by simpa using hx.symm)
      rw [if_neg hne, hc u hu]
      simp
  · intro m hm p hp
    rw [hmatch] at hm
    exact exists_id_state hids _ (hr m hm p hp)
  · intro tx htx'
    rw [htx] at htx'
    rcases List.mem_append.mp htx' with hold | hnew
    · exact exists_id_state hids _ (hv tx hold)
    · have : tx = ⟨uid, amount, kind, desc, ts⟩ := by simpa using hnew
      subst this
      exact exists_id_state hids _ hex

lemma inv_payoutOne (name : String) (w : Bool) (s : State) (p : RosterEntry)
    (hinv : Inv s) (hex : ∃ u ∈ s.users, u.id = p.userId) :
    Inv (payoutOne name w s p) :=
  inv_bump p.userId (payoutAmt w p) (if w then "WIN" else "LOSS")
    ((if w then "Victory: " else "Defeat: ") ++ name) s.now hinv hex
    (payoutOne_users name w s p) (payoutOne_matchList name w s p)
    (payoutOne_tx name w s p)

lemma inv_payoutTeam (name : String) (w : Bool) (team : List RosterEntry) (s : State)
    (hinv : Inv s) (hex : ∀ p ∈ team, ∃ u ∈ s.users, u.id = p.userId) :
    Inv (payoutTeam name w s team) := by
  induction team generalizing s with
  | nil => exact hinv
  | cons q rest ih =>
      show Inv (payoutTeam name w (payoutOne name w s q) rest)
      apply ih
      · exact inv_payoutOne name w s q hinv (hex q (by simp))
      · intro p hp
        exact exists_id_state (payoutOne_users_map_id name w s q) _ (hex p (by simp [hp]))

lemma markPaidFirst_userIds (uid : String) (l : List RosterEntry) :
    (markPaidFirst uid l).map (fun p => p.userId) = l.map (fun p => p.userId) := by
  induction l with
  | nil => rfl
  | cons p rest ih =>
      by_cases h : p.userId = uid
      · simp [markPaidFirst, h]
      · simp [markPaidFirst, h, ih]

lemma markPaidFirst_frozen (uid : String) (l : List RosterEntry) :
    (markPaidFirst uid l).map frozenPart = l.map frozenPart := by
  induction l with
  | nil => rfl
  | cons p rest ih =>
      by_cases h : p.userId = uid
      · simp [markPaidFirst, h, frozenPart]
      · simp [markPaidFirst, h, ih]

lemma saveMatch_mem {m' x : GameMatch} {l : List GameMatch} (hx : x ∈ saveMatch m' l) :
    x = m' ∨ x ∈ l := by
  rcases List.mem_map.mp hx with ⟨y, hy, rfl⟩
  by_cases h : y.id = m'.id
  · simp [h]
  · simp [h, hy]

/-- Each guarded request preserves the conservation invariant. -/
lemma inv_applyOp (s : State) (op : Op) (hinv : Inv s) (hok : opOk s op = true) :
    Inv (applyOp s op) := by
  cases op with
  | createUser u =>
      show Inv (createUser s u).2
      obtain ⟨hc, hr, hv⟩ := hinv
      cases hguard : (s.users.any fun v => v.id == u.id || v.username == u.username || v.email == u.email) with
      | true =>
          rw [createUser_conflict hguard]
          exact ⟨hc, hr, hv⟩
      | false =>
          rw [createUser_fresh hguard]
          have hfresh : ∀ v ∈ s.users, v.id ≠ u.id := by
            intro v hvmem hvid
            have : (s.users.any fun v => v.id == u.id || v.username == u.username || v.email == u.email) = true :=
              List.any_eq_true.mpr ⟨v, hvmem, by simp [hvid]⟩
            rw [hguard] at this
            cases this
          have hbal : u.balance = 0 := by
            have hb := hok
            simp only [opOk, beq_iff_eq] at hb
            exact hb
          refine ⟨?_, ?_, ?_⟩
          · intro v hvmem'
            rcases List.mem_append.mp hvmem' with hold | hnew
            · exact hc v hold
            · have : v = u := by simpa using hnew
              subst this
              rw [hbal]
              refine (txSum_eq_zero _ _ ?_).symm
              intro t ht
              rcases hv t ht with ⟨w, hw, hwid⟩
              rw [← hwid]
              exact hfresh w hw
          · intro m hm p hp
            rcases hr m hm p hp with ⟨w, hw, hwid⟩
            exact ⟨w, List.mem_append.mpr (Or.inl hw), hwid⟩
          · intro t ht
            rcases hv t ht with ⟨w, hw, hwid⟩
            exact ⟨w, List.mem_append.mpr (Or.inl hw), hwid⟩
  | updateUser uid b =>
      show Inv (updateUser s uid b).2
      obtain ⟨hc, hr, hv⟩ := hinv
      cases hfind : findUser s uid with
      | none =>
          rw [updateUser_absent hfind]
          exact ⟨hc, hr, hv⟩
      | some u =>
          rw [updateUser_found hfind]
          have hbal : b.balance = none := by
            have hb := hok
            simp only [opOk, beq_iff_eq] at hb
            exact hb
          have hfid : ∀ v, (applyUpd b v).id = v.id := fun v => rfl
          have hids : (updUser uid (applyUpd b) s.users).map (fun u => u.id) =
              s.users.map (fun u => u.id) :=
            updUser_map_id uid (applyUpd b) hfid s.users
          refine ⟨?_, ?_, ?_⟩
          · intro v' hv'
            rcases List.mem_map.mp hv' with ⟨v, hvmem, rfl⟩
            have hb : (if v.id = uid then applyUpd b v else v).balance = v.balance := by
              split
              · simp [applyUpd, hbal]
              · rfl
            have hid : (if v.id = uid then applyUpd b v else v).id = v.id := by
              split
              · rfl
              · rfl
            show (if v.id = uid then applyUpd b v else v).balance = _
            rw [hb, hid]
            exact hc v hvmem
          · intro m hm p hp
            exact exists_id_of_map_id hids _ (hr m hm p hp)
          · intro t ht
            exact exists_id_of_map_id hids _ (hv t ht)
  | adjust uid amount description =>
      show Inv (adjust s uid amount description).2
      cases hfind : findUser s uid with
      | none =>
          rw [adjust_absent hfind]
          exact hinv
      | some u =>
          rw [adjust_found hfind]
          apply inv_bump uid amount "ADMIN_ADJUST" description s.now hinv
          · exact ⟨u, findUser_mem hfind, findUser_id hfind⟩
          · rfl
          · rfl
          · rfl
  | createMatch mid b =>
      show Inv (createMatch s mid b).2
      obtain ⟨hc, hr, hv⟩ := hinv
      cases hguard : (s.matchList.any fun m => m.id == mid) with
      | true =>
          rw [createMatch_dup hguard]
          exact ⟨hc, hr, hv⟩
      | false =>
          rw [createMatch_fresh hguard]
          have hall : ∀ p ∈ b.teamA ++ b.teamB, (findUser s p.userId).isSome = true := by
            have ha := hok
            simp only [opOk, List.all_eq_true] at ha
            exact ha
          refine ⟨hc, ?_, hv⟩
          intro m hm p hp
          rcases List.mem_append.mp hm with hold | hnew
          · exact hr m hold p hp
          · have : m = ⟨mid, b.name, b.teamA, b.teamB, b.winningTeam,
                b.status.getD "UNDECIDED", b.createdAt.getD s.now⟩ := by simpa using hnew
            subst this
            exact findUser_exists_id (hall p hp)
  | settle mid wt =>
      show Inv (settle s mid wt).2
      cases hfind : findMatch s mid with
      | none =>
          rw [settle_absent hfind]
          exact hinv
      | some m =>
          by_cases hs : m.status = "SETTLED"
          · rw [settle_settled hfind hs]
            exact hinv
          · rw [settle_go hfind hs]
            obtain ⟨hc, hr, hv⟩ := hinv
            have hmem : m ∈ s.matchList := List.mem_of_find?_eq_some hfind
            have hroster : ∀ p ∈ m.teamA ++ m.teamB, ∃ u ∈ s.users, u.id = p.userId :=
              hr m hmem
            have hinv1 : Inv
                { s with matchList :=
                    saveMatch ({ m with status := "SETTLED", winningTeam := some wt }) s.matchList } := by
              refine ⟨hc, ?_, hv⟩
              intro x hx p hp
              rcases saveMatch_mem hx with rfl | hold
              · exact hroster p hp
              · exact hr x hold p hp
            have hinv2 : Inv (payoutTeam m.name true
                { s with matchList :=
                    saveMatch ({ m with status := "SETTLED", winningTeam := some wt }) s.matchList }
                (if wt = "A" then m.teamA else m.teamB)) := by
              apply inv_payoutTeam _ _ _ _ hinv1
              intro p hp
              apply hroster
              revert hp
              split
              · intro hp
                exact List.mem_append.mpr (Or.inl hp)
              · intro hp
                exact List.mem_append.mpr (Or.inr hp)
            apply inv_payoutTeam _ _ _ _ hinv2
            intro p hp
            apply exists_id_state (payoutTeam_users_map_id m.name true _ _)
            apply hroster
            revert hp
            split
            · intro hp
              exact List.mem_append.mpr (Or.inr hp)
            · intro hp
              exact List.mem_append.mpr (Or.inl hp)
  | pay mid uid =>
      show Inv (pay s mid uid).2
      obtain ⟨hc, hr, hv⟩ := hinv
      cases hfind : findMatch s mid with
      | none =>
          rw [pay_absent hfind]
          exact ⟨hc, hr, hv⟩
      | some m =>
          cases hfound : (m.teamA.any (fun p => p.userId == uid) || m.teamB.any (fun p => p.userId == uid)) with
          | false =>
              rw [pay_notfound hfind hfound]
              exact ⟨hc, hr, hv⟩
          | true =>
              rw [pay_found hfind hfound]
              have hmem : m ∈ s.matchList := List.mem_of_find?_eq_some hfind
              have hfid : ∀ v : User,
                  ({ v with totalMatchesPaid := v.totalMatchesPaid + 1 } : User).id = v.id :=
                fun v => rfl
              have hids : (updUser uid (fun v => { v with totalMatchesPaid := v.totalMatchesPaid + 1 }) s.users).map (fun u => u.id) =
                  s.users.map (fun u => u.id) :=
                updUser_map_id uid _ hfid s.users
              refine ⟨?_, ?_, ?_⟩
              · intro v' hv'
                rcases List.mem_map.mp hv' with ⟨v, hvmem, rfl⟩
                have hb : (if v.id = uid then { v with totalMatchesPaid := v.totalMatchesPaid + 1 } else v).balance = v.balance := by
                  split
                  · rfl
                  · rfl
                have hid : (if v.id = uid then { v with totalMatchesPaid := v.totalMatchesPaid + 1 } else v).id = v.id := by
                  split
                  · rfl
                  · rfl
                show (if v.id = uid then _ else v).balance = _
                rw [hb, hid]
                exact hc v hvmem
              · intro x hx p hp
                rcases saveMatch_mem hx with rfl | hold
                · have hpid : p.userId ∈ (markPaidFirst uid m.teamA).map (fun q => q.userId) ∨
                      p.userId ∈ (markPaidFirst uid m.teamB).map (fun q => q.userId) := by
                    rcases List.mem_append.mp hp with h1 | h2
                    · exact Or.inl (List.mem_map.mpr ⟨p, h1, rfl⟩)
                    · exact Or.inr (List.mem_map.mpr ⟨p, h2, rfl⟩)
                  have hpid' : p.userId ∈ m.teamA.map (fun q => q.userId) ∨
                      p.userId ∈ m.teamB.map (fun q => q.userId) := by
                    rcases hpid with h1 | h2
                    · rw [markPaidFirst_userIds] at h1
                      exact Or.inl h1
                    · rw [markPaidFirst_userIds] at h2
                      exact Or.inr h2
                  have hq : ∃ q ∈ m.teamA ++ m.teamB, q.userId = p.userId := by
                    rcases hpid' with h1 | h2
                    · rcases List.mem_map.mp h1 with ⟨q, hqm, hq'⟩
                      exact ⟨q, List.mem_append.mpr (Or.inl hqm), hq'⟩
                    · rcases List.mem_map.mp h2 with ⟨q, hqm, hq'⟩
                      exact ⟨q, List.mem_append.mpr (Or.inr hqm), hq'⟩
                  rcases hq with ⟨q, hqm, hq'⟩
                  rcases hr m hmem q hqm with ⟨w, hw, hwid⟩
                  refine exists_id_of_map_id hids _ ⟨w, hw, ?_⟩
                  rw [hwid, hq']
                · exact exists_id_of_map_id hids _ (hr x hold p hp)
              · intro t ht
                exact exists_id_of_map_id hids _ (hv t ht)

/-! ### Match status / winner invariant machinery -/

lemma createUser_matchList (s : State) (u : User) :
    (createUser s u).2.matchList = s.matchList := by
  unfold createUser
  split <;> rfl

lemma updateUser_matchList (s : State) (uid : String) (b : UserUpd) :
    (updateUser s uid b).2.matchList = s.matchList := by
  cases hfind : findUser s uid with
  | none => rw [updateUser_absent hfind]
  | some u => rw [updateUser_found hfind]

lemma adjust_matchList (s : State) (uid : String) (amount : Int) (d : String) :
    (adjust s uid amount d).2.matchList = s.matchList := by
  cases hfind : findUser s uid with
  | none => rw [adjust_absent hfind]
  | some u => rw [adjust_found hfind]

lemma saveMatch_map_id (m' : GameMatch) (l : List GameMatch) :
    (saveMatch m' l).map (fun x => x.id) = l.map (fun x => x.id) := by
  simp only [saveMatch, List.map_map]
  apply List.map_congr_left
  intro x _
  simp only [Function.comp_apply]
  split
  · rename_i h
    exact h.symm
  · rfl

lemma nodup_id_unique {l : List GameMatch} (h : (l.map (fun m => m.id)).Nodup)
    {x y : GameMatch} (hx : x ∈ l) (hy : y ∈ l) (hxy : x.id = y.id) : x = y :=
  List.inj_on_of_nodup_map h hx hy hxy

lemma settledFrozen_of_eq {s t : State} (h : t.matchList = s.matchList) :
    settledFrozen s t := by
  intro m hm hst
  refine ⟨m, ?_, rfl, hst, rfl, rfl, rfl, rfl⟩
  rw [h]
  exact hm

lemma settledFrozen_trans {s t u : State}
    (h1 : settledFrozen s t) (h2 : settledFrozen t u) : settledFrozen s u := by
  intro m hm hst
  rcases h1 m hm hst with ⟨m1, hm1, hid1, hst1, hwt1, hname1, hA1, hB1⟩
  rcases h2 m1 hm1 hst1 with ⟨m2, hm2, hid2, hst2, hwt2, hname2, hA2, hB2⟩
  exact ⟨m2, hm2, hid2.trans hid1, hst2, hwt2.trans hwt1, hname2.trans hname1,
    hA2.trans hA1, hB2.trans hB1⟩

/-- Each request preserves the id uniqueness of stored matches and never
rewrites a settled match's frozen data (winner, name, roster
user/stake data), whatever the request bodies carry. -/
lemma frozen_applyOp (s : State) (op : Op) (hnd : matchIdsNodup s) :
    matchIdsNodup (applyOp s op) ∧ settledFrozen s (applyOp s op) := by
  have triv : ∀ t : State, t.matchList = s.matchList →
      matchIdsNodup t ∧ settledFrozen s t := by
    intro t ht
    refine ⟨?_, settledFrozen_of_eq ht⟩
    unfold matchIdsNodup
    rw [ht]
    exact hnd
  cases op with
  | createUser u => exact triv _ (createUser_matchList s u)
  | updateUser uid b => exact triv _ (updateUser_matchList s uid b)
  | adjust uid amount description => exact triv _ (adjust_matchList s uid amount description)
  | createMatch mid b =>
      show matchIdsNodup (createMatch s mid b).2 ∧ settledFrozen s (createMatch s mid b).2
      cases hguard : (s.matchList.any fun m => m.id == mid) with
      | true =>
          rw [createMatch_dup hguard]
          exact triv s rfl
      | false =>
          rw [createMatch_fresh hguard]
          have hfreshid : mid ∉ s.matchList.map (fun m => m.id) := by
            intro hmem
            rcases List.mem_map.mp hmem with ⟨m, hmmem, hmid⟩
            have : (s.matchList.any fun m => m.id == mid) = true :=
              List.any_eq_true.mpr ⟨m, hmmem, by simp [hmid]⟩
            rw [hguard] at this
            cases this
          refine ⟨?_, ?_⟩
          · unfold matchIdsNodup
            simp only [List.map_append]
            rw [List.nodup_append]
            refine ⟨hnd, by simp, ?_⟩
            intro x hx
            simp only [List.map_cons, List.map_nil, List.mem_singleton]
            intro hxmid
            subst hxmid
            exact hfreshid hx
          · intro m hmem hst
            exact ⟨m, List.mem_append.mpr (Or.inl hmem), rfl, hst, rfl, rfl, rfl, rfl⟩
  | settle mid wt =>
      show matchIdsNodup (settle s mid wt).2 ∧ settledFrozen s (settle s mid wt).2
      cases hfind : findMatch s mid with
      | none =>
          rw [settle_absent hfind]
          exact triv s rfl
      | some m =>
          by_cases hs : m.status = "SETTLED"
          · rw [settle_settled hfind hs]
            exact triv s rfl
          · rw [settle_go hfind hs]
            have hmem : m ∈ s.matchList := List.mem_of_find?_eq_some hfind
            have hml : (payoutTeam m.name false
                (payoutTeam m.name true
                  { s with matchList :=
                      saveMatch ({ m with status := "SETTLED", winningTeam := some wt }) s.matchList }
                  (if wt = "A" then m.teamA else m.teamB))
                (if wt = "A" then m.teamB else m.teamA)).matchList =
                saveMatch ({ m with status := "SETTLED", winningTeam := some wt }) s.matchList := by
              rw [payoutTeam_matchList, payoutTeam_matchList]
            refine ⟨?_, ?_⟩
            · unfold matchIdsNodup
              rw [hml, saveMatch_map_id]
              exact hnd
            · intro x hx hxst
              have hxne : x.id ≠ m.id := by
                intro heq
                have : x = m := nodup_id_unique hnd hx hmem heq
                subst this
                exact hs hxst
              refine ⟨x, ?_, rfl, hxst, rfl, rfl, rfl, rfl⟩
              rw [hml]
              apply List.mem_map.mpr
              refine ⟨x, hx, ?_⟩
              simp only [if_neg hxne]
  | pay mid uid =>
      show matchIdsNodup (pay s mid uid).2 ∧ settledFrozen s (pay s mid uid).2
      cases hfind : findMatch s mid with
      | none =>
          rw [pay_absent hfind]
          exact triv s rfl
      | some m =>
          cases hfound : (m.teamA.any (fun p => p.userId == uid) || m.teamB.any (fun p => p.userId == uid)) with
          | false =>
              rw [pay_notfound hfind hfound]
              exact triv s rfl
          | true =>
              rw [pay_found hfind hfound]
              have hmem : m ∈ s.matchList := List.mem_of_find?_eq_some hfind
              refine ⟨?_, ?_⟩
              · unfold matchIdsNodup
                rw [saveMatch_map_id]
                exact hnd
              · intro x hx hxst
                by_cases hxe : x.id = m.id
                · have hxm : x = m := nodup_id_unique hnd hx hmem hxe
                  subst hxm
                  refine ⟨{ x with teamA := markPaidFirst uid x.teamA, teamB := markPaidFirst uid x.teamB }, ?_, rfl, hxst, rfl, rfl, markPaidFirst_frozen uid x.teamA, markPaidFirst_frozen uid x.teamB⟩
                  apply List.mem_map.mpr
                  exact ⟨x, hx, by simp⟩
                · refine ⟨x, ?_, rfl, hxst, rfl, rfl, rfl, rfl⟩
                  apply List.mem_map.mpr
                  refine ⟨x, hx, ?_⟩
                  simp only [if_neg hxe]

/-- A request whose match-creation body (if any) leaves `status` and
`winningTeam` unset preserves the status/winner invariant. -/
lemma matchInv_applyOp (s : State) (op : Op) (hm : matchInv s)
    (hplain : plainCreate op = true) : matchInv (applyOp s op) := by
  have triv : ∀ t : State, t.matchList = s.matchList → matchInv t := by
    intro t ht m hmem
    rw [ht] at hmem
    exact hm m hmem
  cases op with
  | createUser u => exact triv _ (createUser_matchList s u)
  | updateUser uid b => exact triv _ (updateUser_matchList s uid b)
  | adjust uid amount description => exact triv _ (adjust_matchList s uid amount description)
  | createMatch mid b =>
      show matchInv (createMatch s mid b).2
      have hb : b.status = none ∧ b.winningTeam = none := by
        have hp := hplain
        simp only [plainCreate, Bool.and_eq_true, beq_iff_eq] at hp
        exact hp
      cases hguard : (s.matchList.any fun m => m.id == mid) with
      | true =>
          rw [createMatch_dup hguard]
          exact triv s rfl
      | false =>
          rw [createMatch_fresh hguard]
          intro m hmem
          rcases List.mem_append.mp hmem with hold | hnew
          · exact hm m hold
          · have : m = ⟨mid, b.name, b.teamA, b.teamB, b.winningTeam,
                b.status.getD "UNDECIDED", b.createdAt.getD s.now⟩ := by simpa using hnew
            subst this
            simp [hb.1, hb.2]
  | settle mid wt =>
      show matchInv (settle s mid wt).2
      cases hfind : findMatch s mid with
      | none =>
          rw [settle_absent hfind]
          exact triv s rfl
      | some m =>
          by_cases hs : m.status = "SETTLED"
          · rw [settle_settled hfind hs]
            exact triv s rfl
          · rw [settle_go hfind hs]
            have hml : (payoutTeam m.name false
                (payoutTeam m.name true
                  { s with matchList :=
                      saveMatch ({ m with status := "SETTLED", winningTeam := some wt }) s.matchList }
                  (if wt = "A" then m.teamA else m.teamB))
                (if wt = "A" then m.teamB else m.teamA)).matchList =
                saveMatch ({ m with status := "SETTLED", winningTeam := some wt }) s.matchList := by
              rw [payoutTeam_matchList, payoutTeam_matchList]
            intro x hx
            rw [hml] at hx
            rcases saveMatch_mem hx with rfl | hold
            · simp
            · exact hm x hold
  | pay mid uid =>
      show matchInv (pay s mid uid).2
      cases hfind : findMatch s mid with
      | none =>
          rw [pay_absent hfind]
          exact triv s rfl
      | some m =>
          cases hfound : (m.teamA.any (fun p => p.userId == uid) || m.teamB.any (fun p => p.userId == uid)) with
          | false =>
              rw [pay_notfound hfind hfound]
              exact triv s rfl
          | true =>
              rw [pay_found hfind hfound]
              have hmem : m ∈ s.matchList := List.mem_of_find?_eq_some hfind
              intro x hx
              rcases saveMatch_mem hx with rfl | hold
              · exact hm m hmem
              · exact hm x hold

lemma frozen_run (ops : List Op) (s : State) (hnd : matchIdsNodup s) :
    matchIdsNodup (run s ops) ∧ settledFrozen s (run s ops) := by
  induction ops generalizing s with
  | nil => exact ⟨hnd, settledFrozen_of_eq rfl⟩
  | cons op ops ih =>
      rcases frozen_applyOp s op hnd with ⟨h1, h2⟩
      rcases ih (applyOp s op) h1 with ⟨h3, h4⟩
      exact ⟨h3, settledFrozen_trans h2 h4⟩

lemma matchInv_run (ops : List Op) (s : State) (hm : matchInv s)
    (hplain : ops.all plainCreate = true) : matchInv (run s ops) := by
  induction ops generalizing s with
  | nil => exact hm
  | cons op ops ih =>
      simp only [List.all_cons, Bool.and_eq_true] at hplain
      exact ih (applyOp s op) (matchInv_applyOp s op hm hplain.1) hplain.2

lemma matchInv_emptyState : matchInv emptyState := by
  intro m hm
  cases hm

lemma matchIdsNodup_emptyState : matchIdsNodup emptyState := by
  simp [matchIdsNodup, emptyState]

lemma inv_run (ops : List Op) (s : State) (hinv : Inv s) (hleg : legal s ops = true) :
    Inv (run s ops) := by
  induction ops generalizing s with
  | nil => exact hinv
  | cons op ops ih =>
      simp only [legal, Bool.and_eq_true] at hleg
      exact ih (applyOp s op) (inv_applyOp s op hinv hleg.1) hleg.2

lemma inv_emptyState : Inv emptyState := by
  refine ⟨?_, ?_, ?_⟩
  · intro u hu
    cases hu
  · intro m hm
    cases hm
  · intro t ht
    cases ht

/-! ### Settlement payout specification -/

lemma find?_saveMatch {l : List GameMatch} {mid : String} {m m' : GameMatch}
    (hfind : l.find? (fun x => x.id == mid) = some m) (hid : m'.id = m.id) :
    (saveMatch m' l).find? (fun x => x.id == mid) = some m' := by
  induction l with
  | nil => cases hfind
  | cons x rest ih =>
      by_cases hx : x.id = mid
      · have hbeq : (x.id == mid) = true := by simp [hx]
        have hxm : m = x := by
          have h := hfind
          rw [List.find?_cons, hbeq] at h
          exact (Option.some.injEq _ _).mp h.symm
        have hxid : x.id = m'.id := by rw [hid, hxm]
        have hmbeq : (m'.id == mid) = true := by
          rw [hid, hxm]
          exact hbeq
        simp only [saveMatch, List.map_cons, if_pos hxid, List.find?_cons, hmbeq]
      · have hbeq : (x.id == mid) = false := by simp [hx]
        have hrest : rest.find? (fun x => x.id == mid) = some m := by
          have h := hfind
          rw [List.find?_cons, hbeq] at h
          exact h
        have hmid : m.id = mid := by
          have := List.find?_some hrest
          simpa using this
        have hxne : ¬ x.id = m'.id := by
          rw [hid, hmid]
          exact hx
        simp only [saveMatch, List.map_cons, if_neg hxne, List.find?_cons, hbeq]
        exact ih hrest

/-- Full behaviour of a successful settlement: the response, the stored
match, the per-player balance deltas, and the appended ledger entries. -/
lemma settle_spec (s : State) (mid wt : String) (m : GameMatch)
    (hm : findMatch s mid = some m) (hs : ¬ m.status = "SETTLED")
    (hnd : ((m.teamA ++ m.teamB).map (fun p => p.userId)).Nodup)
    (hex : ∀ p ∈ m.teamA ++ m.teamB, (findUser s p.userId).isSome) :
    (settle s mid wt).1 = .ok ({ m with status := "SETTLED", winningTeam := some wt }) ∧
    findMatch (settle s mid wt).2 mid =
      some ({ m with status := "SETTLED", winningTeam := some wt }) ∧
    (∀ p ∈ (if wt = "A" then m.teamA else m.teamB),
      getBalance (settle s mid wt).2 p.userId = getBalance s p.userId + p.betAmount) ∧
    (∀ p ∈ (if wt = "A" then m.teamB else m.teamA),
      getBalance (settle s mid wt).2 p.userId = getBalance s p.userId - p.betAmount) ∧
    (settle s mid wt).2.transactions.map txKey =
      s.transactions.map txKey ++
        (if wt = "A" then m.teamA else m.teamB).map
          (fun p => (p.userId, p.betAmount, "WIN", "Victory: " ++ m.name)) ++
        (if wt = "A" then m.teamB else m.teamA).map
          (fun p => (p.userId, -p.betAmount, "LOSS", "Defeat: " ++ m.name)) := by
  have hndA : (m.teamA.map (fun p => p.userId)).Nodup := by
    rw [List.map_append, List.nodup_append] at hnd
    exact hnd.1
  have hndB : (m.teamB.map (fun p => p.userId)).Nodup := by
    rw [List.map_append, List.nodup_append] at hnd
    exact hnd.2.1
  have hdisj : (m.teamA.map (fun p => p.userId)).Disjoint (m.teamB.map (fun p => p.userId)) := by
    rw [List.map_append, List.nodup_append] at hnd
    exact hnd.2.2
  rw [settle_go hm hs]
  set m' : GameMatch := { m with status := "SETTLED", winningTeam := some wt } with hm'def
  set s1 : State := { s with matchList := saveMatch m' s.matchList } with hs1def
  set winners : List RosterEntry := if wt = "A" then m.teamA else m.teamB with hwdef
  set losers : List RosterEntry := if wt = "A" then m.teamB else m.teamA with hldef
  set s2 : State := payoutTeam m.name true s1 winners with hs2def
  set s3 : State := payoutTeam m.name false s2 losers with hs3def
  have husers1 : s1.users = s.users := rfl
  have hbal1 : ∀ x, getBalance s1 x = getBalance s x := fun _ => rfl
  have hsome1 : ∀ x, (findUser s1 x).isSome = (findUser s x).isSome := fun _ => rfl
  have hsome2 : ∀ x, (findUser s2 x).isSome = (findUser s x).isSome := by
    intro x
    rw [hs2def]
    exact (findUser_isSome_of_map_id x
      (payoutTeam_users_map_id m.name true winners s1)).trans (hsome1 x)
  have hwmem : ∀ p ∈ winners, p ∈ m.teamA ++ m.teamB := by
    intro p hp
    rw [hwdef] at hp
    by_cases hwt : wt = "A"
    · rw [if_pos hwt] at hp
      exact List.mem_append.mpr (Or.inl hp)
    · rw [if_neg hwt] at hp
      exact List.mem_append.mpr (Or.inr hp)
  have hlmem : ∀ p ∈ losers, p ∈ m.teamA ++ m.teamB := by
    intro p hp
    rw [hldef] at hp
    by_cases hwt : wt = "A"
    · rw [if_pos hwt] at hp
      exact List.mem_append.mpr (Or.inr hp)
    · rw [if_neg hwt] at hp
      exact List.mem_append.mpr (Or.inl hp)
  have hwnd : (winners.map (fun p => p.userId)).Nodup := by
    rw [hwdef]
    by_cases hwt : wt = "A"
    · rw [if_pos hwt]
      exact hndA
    · rw [if_neg hwt]
      exact hndB
  have hlnd : (losers.map (fun p => p.userId)).Nodup := by
    rw [hldef]
    by_cases hwt : wt = "A"
    · rw [if_pos hwt]
      exact hndB
    · rw [if_neg hwt]
      exact hndA
  have hwl : ∀ p ∈ winners, p.userId ∉ losers.map (fun q => q.userId) := by
    intro p hp hin
    rw [hwdef] at hp
    rw [hldef] at hin
    by_cases hwt : wt = "A"
    · rw [if_pos hwt] at hp
      rw [if_pos hwt] at hin
      exact hdisj (List.mem_map.mpr ⟨p, hp, rfl⟩) hin
    · rw [if_neg hwt] at hp
      rw [if_neg hwt] at hin
      exact hdisj hin (List.mem_map.mpr ⟨p, hp, rfl⟩)
  have hlw : ∀ p ∈ losers, p.userId ∉ winners.map (fun q => q.userId) := by
    intro p hp hin
    rw [hldef] at hp
    rw [hwdef] at hin
    by_cases hwt : wt = "A"
    · rw [if_pos hwt] at hp
      rw [if_pos hwt] at hin
      exact hdisj hin (List.mem_map.mpr ⟨p, hp, rfl⟩)
    · rw [if_neg hwt] at hp
      rw [if_neg hwt] at hin
      exact hdisj (List.mem_map.mpr ⟨p, hp, rfl⟩) hin
  refine ⟨rfl, ?_, ?_, ?_, ?_⟩
  · show findMatch s3 mid = some m'
    have hml : s3.matchList = saveMatch m' s.matchList := by
      rw [hs3def, payoutTeam_matchList, hs2def, payoutTeam_matchList]
    unfold findMatch
    rw [hml]
    exact find?_saveMatch hm rfl
  · intro p hp
    show getBalance s3 p.userId = getBalance s p.userId + p.betAmount
    rw [hs3def, getBalance_payoutTeam_notin m.name false losers s2 (hwl p hp)]
    rw [hs2def, getBalance_payoutTeam_mem m.name true winners s1 hwnd
      (fun q hq => by rw [hsome1]; exact hex q (hwmem q hq)) hp]
    rw [hbal1]
    rfl
  · intro p hp
    show getBalance s3 p.userId = getBalance s p.userId - p.betAmount
    rw [hs3def, getBalance_payoutTeam_mem m.name false losers s2 hlnd
      (fun q hq => by rw [hsome2]; exact hex q (hlmem q hq)) hp]
    rw [hs2def, getBalance_payoutTeam_notin m.name true winners s1 (hlw p hp)]
    rw [hbal1]
    show getBalance s p.userId + (-p.betAmount) = getBalance s p.userId - p.betAmount
    exact (sub_eq_add_neg _ _).symm
  · show s3.transactions.map txKey = _
    rw [hs3def, payoutTeam_txKey, hs2def, payoutTeam_txKey]
    have htx1 : s1.transactions = s.transactions := rfl
    rw [htx1]
    simp only [if_pos, if_neg, Bool.false_eq_true, not_false_iff, payoutAmt]

lemma getBalance_adjust_found {s : State} {uid : String} {amount : Int} {d : String}
    {u : User} (hu : findUser s uid = some u) :
    getBalance (adjust s uid amount d).2 uid = getBalance s uid + amount := by
  have husers : (adjust s uid amount d).2.users =
      updUser uid (fun v => { v with balance := v.balance + amount }) s.users := by
    rw [adjust_found hu]
  rw [getBalance_updUser_self husers (fun _ => rfl) hu]
  unfold getBalance
  rw [hu]

/-! ### Claim theorems -/

/-- Claim C1: for a match already in status SETTLED, a (second) call to
the settle route fails with the Conflict response (the route's 400) and
returns the database state unchanged: no account balance, no ledger
entry, and no match record is touched.  On this path the handler performs
only the initial read, so interleaved concurrent calls behave as the
sequential ones. -/
theorem settle_exactly_once (s : State) (mid wt : String) (m : GameMatch)
    (hm : findMatch s mid = some m) (hs : m.status = "SETTLED") :
    (settle s mid wt).1 = .error 400 ∧ (settle s mid wt).2 = s := by
  rw [settle_settled hm hs]
  exact ⟨rfl, rfl⟩

/-- Witness for C1: re-settling the already settled sample match fails
with 400 and leaves the state untouched. -/
theorem settle_exactly_once_witness :
    (settle sampleSettled "m1" "B").1 = .error 400 ∧
    (settle sampleSettled "m1" "B").2 = sampleSettled :=
  settle_exactly_once sampleSettled "m1" "B"
    ({ mAlphaBeta with status := "SETTLED", winningTeam := some "A" }) rfl rfl

/-- Claim C2 (amended): starting from the empty database, for every
sequence of core requests in which created users start at balance 0,
created matches only reference existing accounts, and user updates do not
write the balance field, every account's balance equals the sum of its
ledger entry amounts. -/
theorem conservation_of_legal_runs (ops : List Op)
    (hleg : legal emptyState ops = true) :
    ∀ u ∈ (run emptyState ops).users,
      u.balance = txSum (run emptyState ops).transactions u.id :=
  (inv_run ops emptyState inv_emptyState hleg).1

/-- Witness for C2: a legal run (create alice, credit her 50) satisfies
conservation. -/
theorem conservation_of_legal_runs_witness :
    legal emptyState demoOps = true ∧
    ∀ u ∈ (run emptyState demoOps).users,
      u.balance = txSum (run emptyState demoOps).transactions u.id :=
  ⟨by decide, conservation_of_legal_runs demoOps (by decide)⟩

/-- Counterexample to C2 as stated: the user-update route (PATCH
/api/users/:id) may set `balance` directly without any ledger entry.
After creating alice (balance 0, empty ledger) and updating her balance
to 5, her balance is 5 while her ledger sum is 0. -/
theorem conservation_counterexample :
    (findUser cexState "u1").isSome = true ∧
    getBalance cexState "u1" = 5 ∧
    txSum cexState.transactions "u1" = 0 ∧
    ¬ getBalance cexState "u1" = txSum cexState.transactions "u1" := by
  refine ⟨rfl, rfl, rfl, ?_⟩
  intro h
  rw [show getBalance cexState "u1" = 5 from rfl,
    show txSum cexState.transactions "u1" = 0 from rfl] at h
  cases h

/-- Claim C3 (code bug): the pay route increments `totalMatchesPaid`
unconditionally on every successful call, so two calls for the same
match/player leave the roster entry paid but increment the counter by 2,
not 1 as the claim requires. -/
theorem pay_double_increment :
    getTotalPaid payOnceState "u1" = 1 ∧
    getTotalPaid payTwiceState "u1" = 2 ∧
    (findMatch payTwiceState "m1").map (fun m => m.teamA.map (fun p => p.paid)) =
      some [true] :=
  ⟨rfl, rfl, rfl⟩

/-- Claim C4: settling an undecided match with winner "A" or "B"
(distinct roster players, all with accounts) responds with the SETTLED
match carrying the given winner, stores it, credits every winning-roster
entry exactly its stake with one WIN ledger entry described
`Victory: <match name>`, and debits every losing-roster entry exactly its
stake with one LOSS ledger entry described `Defeat: <match name>`. -/
theorem settle_payout (s : State) (mid wt : String) (m : GameMatch)
    (hm : findMatch s mid = some m) (hund : m.status = "UNDECIDED")
    (hwt : wt = "A" ∨ wt = "B")
    (hnd : ((m.teamA ++ m.teamB).map (fun p => p.userId)).Nodup)
    (hex : ∀ p ∈ m.teamA ++ m.teamB, (findUser s p.userId).isSome) :
    (settle s mid wt).1 = .ok ({ m with status := "SETTLED", winningTeam := some wt }) ∧
    findMatch (settle s mid wt).2 mid =
      some ({ m with status := "SETTLED", winningTeam := some wt }) ∧
    (∀ p ∈ (if wt = "A" then m.teamA else m.teamB),
      getBalance (settle s mid wt).2 p.userId = getBalance s p.userId + p.betAmount) ∧
    (∀ p ∈ (if wt = "A" then m.teamB else m.teamA),
      getBalance (settle s mid wt).2 p.userId = getBalance s p.userId - p.betAmount) ∧
    (settle s mid wt).2.transactions.map txKey =
      s.transactions.map txKey ++
        (if wt = "A" then m.teamA else m.teamB).map
          (fun p => (p.userId, p.betAmount, "WIN", "Victory: " ++ m.name)) ++
        (if wt = "A" then m.teamB else m.teamA).map
          (fun p => (p.userId, -p.betAmount, "LOSS", "Defeat: " ++ m.name)) := by
  have hs : ¬ m.status = "SETTLED" := by
    rw [hund]
    decide
  exact settle_spec s mid wt m hm hs hnd hex

/-- Witness for C4: settling the sample match with winner "A" credits
alice (teamA, stake 100) exactly 100. -/
theorem settle_payout_witness :
    getBalance (settle sample "m1" "A").2 "u1" = getBalance sample "u1" + 100 :=
  (settle_payout sample "m1" "A" mAlphaBeta rfl rfl (Or.inl rfl) (by decide)
      (by decide)).2.2.1 ⟨"u1", "alice", 100, false⟩ (by decide)

/-- Claim C5 (code bug): the settle route persists `status = SETTLED`
(the awaited `match.save()` of line 129) before any payout write.  In the
state durable at that point the sample match is SETTLED while the ledger
has no entries and both balances are unchanged, so an interruption there
leaves a settled match with no payouts — contradicting all-or-nothing
settlement. -/
theorem settle_partial_state :
    (settleAfterSave sample "m1" "A").map (fun si =>
      ((findMatch si "m1").map (fun m => m.status), si.transactions.length,
        getBalance si "u1", getBalance si "u2")) =
      some (some "SETTLED", 0, 0, 0) := rfl

/-- Counterexample to C6 as stated: settling with winningTeam = "X"
(neither "A" nor "B") does not fail with InvalidArgument: it succeeds,
transitions the match to SETTLED with winningTeam "X", changes balances
(bob gains 100) and appends two ledger entries. -/
theorem settle_invalid_winner_counterexample :
    (settle sample "m1" "X").1 =
      .ok ({ mAlphaBeta with status := "SETTLED", winningTeam := some "X" }) ∧
    (findMatch (settle sample "m1" "X").2 "m1").map (fun m => m.status) =
      some "SETTLED" ∧
    getBalance (settle sample "m1" "X").2 "u2" = 100 ∧
    (settle sample "m1" "X").2.transactions.length = 2 :=
  ⟨rfl, rfl, rfl, rfl⟩

/-- Claim C6 (amended): the settle route performs no validation of
`winningTeam`: for any string value whatsoever, settling an existing
non-settled match succeeds and stores that value as the winner (a value
other than "A" routes the payouts to teamB, see C10). -/
theorem settle_any_winner (s : State) (mid wt : String) (m : GameMatch)
    (hm : findMatch s mid = some m) (hs : ¬ m.status = "SETTLED") :
    (settle s mid wt).1 =
      .ok ({ m with status := "SETTLED", winningTeam := some wt }) := by
  rw [settle_go hm hs]

/-- Witness for C6 (amended): settling the sample match with the invalid
designator "X" succeeds. -/
theorem settle_any_winner_witness :
    (settle sample "m1" "X").1 =
      .ok ({ mAlphaBeta with status := "SETTLED", winningTeam := some "X" }) :=
  settle_any_winner sample "m1" "X" mAlphaBeta rfl (by decide)

/-- Claim C7: for an existing account, the adjust route adds the amount
to the balance, responds with the updated user, appends exactly one
ADMIN_ADJUST ledger entry carrying that amount and description, and
emits exactly one notification whose message carries the signed amount
and the reason; for an absent account it fails with 404 and changes
nothing. -/
theorem adjust_route_spec (s : State) (uid : String) (amount : Int) (d : String) :
    (∀ u, findUser s uid = some u →
      (adjust s uid amount d).1 = .ok ({ u with balance := u.balance + amount }) ∧
      getBalance (adjust s uid amount d).2 uid = getBalance s uid + amount ∧
      (adjust s uid amount d).2.transactions =
        s.transactions ++ [⟨uid, amount, "ADMIN_ADJUST", d, s.now⟩] ∧
      (adjust s uid amount d).2.notifs =
        s.notifs ++ [⟨uid, adjustMessage amount d, s.now + 1, false⟩] ∧
      (adjust s uid amount d).2.matchList = s.matchList) ∧
    (findUser s uid = none → adjust s uid amount d = (.error 404, s)) := by
  constructor
  · intro u hu
    refine ⟨?_, getBalance_adjust_found hu, ?_, ?_, ?_⟩ <;> rw [adjust_found hu]
  · intro hnone
    exact adjust_absent hnone

/-- Witness for C7: `adjust(u1, -30, "penalty")` on the sample database
debits alice 30 and records the -30 ADMIN_ADJUST entry and the
notification message. -/
theorem adjust_route_spec_witness :
    (adjust sample "u1" (-30) "penalty").1 =
      .ok ({ uAlice with balance := uAlice.balance + (-30) }) ∧
    getBalance (adjust sample "u1" (-30) "penalty").2 "u1" =
      getBalance sample "u1" + (-30) ∧
    (adjust sample "u1" (-30) "penalty").2.notifs =
      sample.notifs ++ [⟨"u1", adjustMessage (-30) "penalty", sample.now + 1, false⟩] :=
  ⟨((adjust_route_spec sample "u1" (-30) "penalty").1 uAlice rfl).1,
   ((adjust_route_spec sample "u1" (-30) "penalty").1 uAlice rfl).2.1,
   ((adjust_route_spec sample "u1" (-30) "penalty").1 uAlice rfl).2.2.2.1⟩

/-- Counterexample to C8 as stated: POST /api/matches passes the whole
request body to the Match constructor, so a body carrying
`winningTeam: "A"` (and no status) creates a match that is UNDECIDED yet
has its winner set — a state reachable by the create route in which
`winningTeam` is set without `status = SETTLED`. -/
theorem match_invariant_counterexample :
    (findMatch riggedState "m2").map (fun m => (m.status, m.winningTeam)) =
      some ("UNDECIDED", some "A") ∧
    ¬ matchInv riggedState := by
  refine ⟨rfl, ?_⟩
  intro h
  have hmem : (⟨"m2", "Ghost vs Shadow", [⟨"u1", "alice", 100, false⟩],
      [⟨"u2", "bob", 100, false⟩], some "A", "UNDECIDED", 0⟩ : GameMatch) ∈
      riggedState.matchList := by decide
  have h2 := h _ hmem
  exact absurd (h2.mp (by decide)) (by decide)

/-- Claim C8 (amended): in every state reachable from the empty database
by core requests whose match-creation bodies supply neither `status` nor
`winningTeam` (the plain name-plus-rosters body), a stored match's
`winningTeam` is present exactly when its status is SETTLED; and — for
arbitrary later requests, whatever their bodies — every settled match
keeps its winner, name, and its rosters' user/stake data (only `paid`
flags may still change). -/
theorem match_status_winner_invariant (ops1 ops2 : List Op)
    (hplain : ops1.all plainCreate = true) :
    matchInv (run emptyState ops1) ∧
    settledFrozen (run emptyState ops1) (run (run emptyState ops1) ops2) := by
  have h1 := matchInv_run ops1 emptyState matchInv_emptyState hplain
  have h2 := frozen_run ops1 emptyState matchIdsNodup_emptyState
  have h3 := frozen_run ops2 (run emptyState ops1) h2.1
  exact ⟨h1, h3.2⟩

/-- Witness for C8 (amended): a plain run creating both players and the
1v1 match and settling it satisfies the invariant, and a later pay
request leaves the settled match's frozen data intact. -/
theorem match_status_winner_invariant_witness :
    plainOps.all plainCreate = true ∧
    (matchInv (run emptyState plainOps) ∧
     settledFrozen (run emptyState plainOps)
       (run (run emptyState plainOps) [Op.pay "m1" "u1"])) :=
  ⟨by decide, match_status_winner_invariant plainOps [Op.pay "m1" "u1"] (by decide)⟩

/-- Claim C9: the transaction queries return exactly the stored (resp.
matching) ledger entries, ordered by timestamp descending, and the
per-account query returns only entries of that account. -/
theorem tx_query_order (s : State) (uid : String) :
    (listAllTx s).Perm s.transactions ∧
    List.Sorted txGe (listAllTx s) ∧
    (listTxFor s uid).Perm (s.transactions.filter (fun t => t.userId == uid)) ∧
    List.Sorted txGe (listTxFor s uid) ∧
    ∀ t ∈ listTxFor s uid, t.userId = uid := by
  refine ⟨List.perm_insertionSort txGe _, List.sorted_insertionSort txGe _,
    List.perm_insertionSort txGe _, List.sorted_insertionSort txGe _, ?_⟩
  intro t ht
  have hmem : t ∈ s.transactions.filter (fun t => t.userId == uid) :=
    (List.perm_insertionSort txGe _).mem_iff.mp ht
  have := List.mem_filter.mp hmem
  simpa using this.2

/-- Claim C10: for any winningTeam value other than the string "A", the
settle route treats teamB as the winning roster and teamA as the losing
roster: each teamB entry is credited its stake with a WIN ledger entry
and each teamA entry is debited its stake with a LOSS ledger entry. -/
theorem settle_nonA_teamB_wins (s : State) (mid wt : String) (m : GameMatch)
    (hm : findMatch s mid = some m) (hund : m.status = "UNDECIDED")
    (hwt : ¬ wt = "A")
    (hnd : ((m.teamA ++ m.teamB).map (fun p => p.userId)).Nodup)
    (hex : ∀ p ∈ m.teamA ++ m.teamB, (findUser s p.userId).isSome) :
    (∀ p ∈ m.teamB,
      getBalance (settle s mid wt).2 p.userId = getBalance s p.userId + p.betAmount) ∧
    (∀ p ∈ m.teamA,
      getBalance (settle s mid wt).2 p.userId = getBalance s p.userId - p.betAmount) ∧
    (settle s mid wt).2.transactions.map txKey =
      s.transactions.map txKey ++
        m.teamB.map (fun p => (p.userId, p.betAmount, "WIN", "Victory: " ++ m.name)) ++
        m.teamA.map (fun p => (p.userId, -p.betAmount, "LOSS", "Defeat: " ++ m.name)) := by
  have hs : ¬ m.status = "SETTLED" := by
    rw [hund]
    decide
  have h := settle_spec s mid wt m hm hs hnd hex
  simp only [if_neg hwt] at h
  exact ⟨h.2.2.1, h.2.2.2.1, h.2.2.2.2⟩

/-- Witness for C10: settling the sample match with the arbitrary string
"X" credits bob (teamB) exactly his 100 stake. -/
theorem settle_nonA_teamB_wins_witness :
    getBalance (settle sample "m1" "X").2 "u2" = getBalance sample "u2" + 100 :=
  (settle_nonA_teamB_wins sample "m1" "X" mAlphaBeta rfl rfl (by decide) (by decide)
      (by decide)).1 ⟨"u2", "bob", 100, false⟩ (by decide)

end EliteFire
